import Mathlib

/-!
Verification of the EpiChord iterative path lookup
(`src/overlay/epichord/EpiChordIterativeLookup.cc`): the predecessor/successor
bracket tracker, the false-negative resolver, and the next-hop selector.

The C++ class state is embedded as `PLState` (path-lookup state): the
engine-owned part (`EngineState`: candidate pool, visited/dead sets,
success/finished flags, sibling results, target key) plus the subclass-owned
bracket slots and the log of emitted stale-link notifications.  The generic
base-class handlers (`IterativePathLookup::handleResponse` etc.) are not part
of this translation unit; they are passed in as arbitrary functions on
`EngineState` — they cannot touch the subclass bracket fields, exactly as in
the C++ where those fields are not visible to the base class.

Ring keys are fixed-width modular identifiers; we model them as naturals
modulo a keyspace size `N`.
-/

namespace EpiChord

/-- Modelled from the spec: the ring key space library (not in `src/`)
provides a directional (clockwise) distance metric on the circular key space
of size `N`: `ringDist N x y` is how far one walks clockwise from `x` to
reach `y`. -/
def ringDist (N x y : Nat) : Nat := (y + N - x % N) % N

/-- Modelled from the spec: an overlay key is a fixed-width identifier which
may also be in a distinguished unspecified state. -/
structure OverlayKey where
  uns : Bool
  val : Nat
deriving DecidableEq

/-- Modelled from the spec: the maximum-distance sentinel of the ring key
space library (`OverlayKey::getMax()`), the largest representable distance. -/
def OverlayKey.getMax (N : Nat) : Nat := N - 1

/-- Modelled from the spec: `keyBetween N x a b` holds iff walking clockwise
from `a` one reaches `x` strictly before reaching `b` (strict at both
endpoints; when `a = b` the arc is the whole ring, so every `x ≠ a`
qualifies). -/
def keyBetween (N x a b : Nat) : Bool :=
  decide (0 < ringDist N a x) &&
    (decide (ringDist N a x < ringDist N a b) || decide (ringDist N a b = 0))

/-- Modelled from the spec: `x.isBetween a b` on overlay keys; false whenever
any of the three keys is unspecified. -/
def OverlayKey.isBetween (N : Nat) (x a b : OverlayKey) : Bool :=
  !x.uns && !a.uns && !b.uns && keyBetween N x.val a.val b.val

/-- Modelled from the spec: a peer handle is a ring key plus a contact
address, compared by value. -/
structure NodeHandle where
  key : OverlayKey
  ip : Nat
deriving DecidableEq

/-- Modelled from the spec: a handle is unspecified when its key is. -/
def NodeHandle.isUnspecified (h : NodeHandle) : Bool := h.key.uns

/-- Modelled from the spec: one entry of the candidate pool (`LookupEntry`):
a peer handle plus the already-probed flag stored in the entry itself. -/
structure LookupEntry where
  handle : NodeHandle
  alreadyUsed : Bool
deriving DecidableEq

/-- Modelled from the spec: the state owned by the generic iterative-lookup
engine: the target key, the candidate pool (`nextHops`), the visited and dead
sets queried through `lookup->getVisited` / `lookup->getDead`, the
success/finished flags and the sibling result list. -/
structure EngineState where
  target : Nat
  entries : List LookupEntry
  visitedL : List NodeHandle
  deadL : List NodeHandle
  success : Bool
  finished : Bool
  siblings : List NodeHandle
deriving DecidableEq

/-- Modelled from the spec: the engine's visited query. -/
def EngineState.getVisited (s : EngineState) (h : NodeHandle) : Bool :=
  s.visitedL.contains h

/-- Modelled from the spec: the engine's dead query. -/
def EngineState.getDead (s : EngineState) (h : NodeHandle) : Bool :=
  s.deadL.contains h

/-- The whole `EpiChordIterativePathLookup` state: engine part, the four
bracket slots, and the log of stale-link notifications sent through
`epichord->sendFalseNegWarning` (each records claimed predecessor, claimed
successor, and the dead-node list). -/
structure PLState where
  engine : EngineState
  notifs : List (NodeHandle × NodeHandle × List NodeHandle)
  bestPredecessor : NodeHandle
  bestPredecessorsSuccessor : NodeHandle
  bestSuccessor : NodeHandle
  bestSuccessorsPredecessor : NodeHandle
deriving DecidableEq

/-- The lookup's target key as an `OverlayKey` (`lookup->getKey()`), always
specified. -/
def PLState.targetKey (s : PLState) : OverlayKey := ⟨false, s.engine.target⟩

/-- A `FindNodeResponse` message: source node and closest-nodes list. -/
structure FindNodeResponse where
  srcNode : NodeHandle
  closestNodes : List NodeHandle
deriving DecidableEq

/-- One scan step of `getPreceedingEntry` (lines 161–174): skip dead entries
unless `incDead`, skip already-used entries unless `incUsed`, and keep the
entry of strictly maximal clockwise distance from the target. -/
def preStep (N : Nat) (s : PLState) (incDead incUsed : Bool)
    (acc : Option LookupEntry × Nat) (e : LookupEntry) :
    Option LookupEntry × Nat :=
  if !incDead && s.engine.getDead e.handle then acc
  else if !incUsed && e.alreadyUsed then acc
  else if ringDist N s.engine.target e.handle.key.val ≤ acc.2 then acc
  else (some e, ringDist N s.engine.target e.handle.key.val)

/-- `EpiChordIterativePathLookup::getPreceedingEntry` (lines 155–177): scan
`nextHops` for the closest node before the key, i.e. maximal clockwise
distance from the target, starting from the sentinel `maxDistance = 0`. -/
def getPreceedingEntry (N : Nat) (s : PLState) (incDead incUsed : Bool) :
    Option LookupEntry :=
  (s.engine.entries.foldl (preStep N s incDead incUsed) (none, 0)).1

/-- One scan step of `getSucceedingEntry` (lines 185–198): same filters, keep
the entry of strictly minimal clockwise distance from the target. -/
def succStep (N : Nat) (s : PLState) (incDead incUsed : Bool)
    (acc : Option LookupEntry × Nat) (e : LookupEntry) :
    Option LookupEntry × Nat :=
  if !incDead && s.engine.getDead e.handle then acc
  else if !incUsed && e.alreadyUsed then acc
  else if acc.2 ≤ ringDist N s.engine.target e.handle.key.val then acc
  else (some e, ringDist N s.engine.target e.handle.key.val)

/-- `EpiChordIterativePathLookup::getSucceedingEntry` (lines 179–201): scan
`nextHops` for the closest node after the key, i.e. minimal clockwise
distance from the target, starting from the sentinel
`minDistance = OverlayKey::getMax()`. -/
def getSucceedingEntry (N : Nat) (s : PLState) (incDead incUsed : Bool) :
    Option LookupEntry :=
  (s.engine.entries.foldl (succStep N s incDead incUsed) (none, OverlayKey.getMax N)).1

/-- Modelled from the spec: the header declaring the default arguments of
`getPreceedingEntry`/`getSucceedingEntry` is not in `src/`.  The spec (§4.2)
restricts the resolver's bracket scan to entries that are alive, with the
visited restriction enforced by a separate check at the call site, so the
defaults are `incDead = false` (exclude dead) and `incUsed = true` (no
used-state filter; a visited entry is necessarily already used). -/
def getPreceedingEntryD (N : Nat) (s : PLState) : Option LookupEntry :=
  getPreceedingEntry N s false true

/-- Modelled from the spec: default-argument call of `getSucceedingEntry`,
same defaults as `getPreceedingEntryD`. -/
def getSucceedingEntryD (N : Nat) (s : PLState) : Option LookupEntry :=
  getSucceedingEntry N s false true

/-- The dead-node scan of `checkFalseNegative` (lines 85–91): all handles of
pool entries currently flagged dead. -/
def deadNodesOf (s : PLState) : List NodeHandle :=
  (s.engine.entries.filter (fun e => s.engine.getDead e.handle)).map
    (fun e => e.handle)

/-- The `assumeSuccess`/`assumeFinished` locals of `checkFalseNegative`
(lines 67–79), computed as a pair: corroborating brackets force both true;
otherwise two dead blockers force `assumeSuccess` but leave `assumeFinished`
at the current finished flag; otherwise both keep their initial values, the
lookup's current success/finished flags. -/
def assumeFlags (s : PLState) : Bool × Bool :=
  if s.bestSuccessor == s.bestPredecessorsSuccessor
      || s.bestPredecessor == s.bestSuccessorsPredecessor then
    (true, true)
  else if s.engine.getDead s.bestPredecessorsSuccessor
      && s.engine.getDead s.bestSuccessorsPredecessor then
    (true, s.engine.finished)
  else (s.engine.success, s.engine.finished)

/-- The concluding block of `checkFalseNegative` (lines 85–102): collect all
dead pool entries; if any exist, send the stale-link warning naming
`bestPredecessor`, `bestSuccessor` and the dead list; register
`bestSuccessor` as a sibling and force `finished` and `success`. -/
def concludeFalseNegative (s : PLState) : PLState :=
  if !(deadNodesOf s).isEmpty then
    { s with
        notifs := s.notifs ++ [(s.bestPredecessor, s.bestSuccessor, deadNodesOf s)],
        engine := { s.engine with
            siblings := s.engine.siblings ++ [s.bestSuccessor],
            finished := true, success := true } }
  else
    { s with engine := { s.engine with
        siblings := s.engine.siblings ++ [s.bestSuccessor],
        finished := true, success := true } }

/-- `EpiChordIterativePathLookup::checkFalseNegative` (lines 51–103): the
false-negative resolver.  Returns the updated state; the stale-link warning
is recorded on the notification log and the sibling registration on the
engine's sibling list. -/
def checkFalseNegative (N : Nat) (s : PLState) : PLState :=
  if s.engine.success then s
  else
    match getPreceedingEntryD N s, getSucceedingEntryD N s with
    | some pe, some se =>
      if !(s.engine.getVisited pe.handle) || !(s.engine.getVisited se.handle) then s
      else if !(assumeFlags s).1 || !(assumeFlags s).2 then s
      else concludeFalseNegative s
    | _, _ => s

/-- The bracket-tracker block of `handleResponse` (lines 110–134): when the
source is specified and the closest-nodes list is non-empty, tighten
whichever bracket the source's key falls into.  Out-of-bounds list accesses
(`msg->getClosestNodes(1)`/`(2)` when the list is too short) are errors in
the C++ and are rendered as `none`. -/
def trackerUpdate (N : Nat) (s : PLState) (msg : FindNodeResponse) :
    Option PLState :=
  if !msg.srcNode.isUnspecified && decide (0 < msg.closestNodes.length) then
    if OverlayKey.isBetween N msg.srcNode.key s.bestPredecessor.key s.targetKey then
      match msg.closestNodes.get? 0 with
      | none => none
      | some c0 =>
        if c0 == msg.srcNode then
          match msg.closestNodes.get? 2 with
          | none => none
          | some c2 =>
            some { s with bestPredecessor := msg.srcNode,
                          bestPredecessorsSuccessor := c2 }
        else
          some { s with bestPredecessor := msg.srcNode,
                        bestPredecessorsSuccessor := c0 }
    else if OverlayKey.isBetween N msg.srcNode.key s.targetKey s.bestSuccessor.key then
      match msg.closestNodes.get? 0 with
      | none => none
      | some c0 =>
        if c0 == msg.srcNode then
          match msg.closestNodes.get? 1 with
          | none => none
          | some c1 =>
            some { s with bestSuccessor := msg.srcNode,
                          bestSuccessorsPredecessor := c1 }
        else
          some { s with bestSuccessor := msg.srcNode,
                        bestSuccessorsPredecessor := c0 }
    else some s
  else some s

/-- `EpiChordIterativePathLookup::handleResponse` (lines 105–141): no-op when
finished; otherwise tracker update, delegation to the base-class handler
`dresp` (an arbitrary function on the engine part), then the resolver. -/
def handleResponse (N : Nat) (dresp : EngineState → EngineState)
    (msg : FindNodeResponse) (s : PLState) : Option PLState :=
  if s.engine.finished then some s
  else
    match trackerUpdate N s msg with
    | none => none
    | some s1 =>
      some (checkFalseNegative N { s1 with engine := dresp s1.engine })

/-- `EpiChordIterativePathLookup::handleTimeout` (lines 143–153): no-op when
finished; otherwise delegate to the base-class handler `dtime`, then run the
resolver. -/
def handleTimeout (N : Nat) (dtime : EngineState → EngineState)
    (s : PLState) : PLState :=
  if s.engine.finished then s
  else checkFalseNegative N { s with engine := dtime s.engine }

/-- `EpiChordIterativePathLookup::getNextEntry` (lines 203–214): prefer the
succeeding entry computed over alive candidates irrespective of the used
flag; if it exists and is not yet used return it, otherwise fall back to the
base-class selector `dnext`. -/
def getNextEntry (N : Nat) (dnext : PLState → Option LookupEntry)
    (s : PLState) : Option LookupEntry :=
  match getSucceedingEntry N s false true with
  | some e => if !e.alreadyUsed then some e else dnext s
  | none => dnext s

end EpiChord

namespace EpiChord

lemma ringDist_eq_of_lt (N x y : Nat) (hx : x < N) (hy : y < N) :
    ringDist N x y = if x ≤ y then y - x else y + N - x := by
  have hx' : x % N = x := Nat.mod_eq_of_lt hx
  unfold ringDist
  rw [hx']
  split
  · have h1 : y + N - x = (y - x) + N := by omega
    rw [h1, Nat.add_mod_right]
    exact Nat.mod_eq_of_lt (by omega)
  · exact Nat.mod_eq_of_lt (by omega)

lemma ringDist_lt_of_lt (N x y : Nat) (hN : 0 < N) : ringDist N x y < N := by
  exact Nat.mod_lt _ hN

lemma ringDist_self_pos (N x y : Nat) (hx : x < N) (hy : y < N) (hxy : x ≠ y) :
    0 < ringDist N x y := by
  rw [ringDist_eq_of_lt N x y hx hy]
  split <;> omega

lemma ringDist_eq_zero (N x : Nat) (hx : x < N) : ringDist N x x = 0 := by
  rw [ringDist_eq_of_lt N x x hx hx]
  simp

/-- Tightening lemma: if `x` lies strictly between `b` and `t` on the ring
(positive distance from `b`, strictly closer to `b` than `t` is), then `x` is
strictly closer in front of `t` than `b` is. -/
lemma ringDist_tighten (N b x t : Nat) (hb : b < N) (hx : x < N) (ht : t < N)
    (h1 : 0 < ringDist N b x) (h2 : ringDist N b x < ringDist N b t) :
    ringDist N x t < ringDist N b t := by
  rw [ringDist_eq_of_lt N b x hb hx] at h1
  rw [ringDist_eq_of_lt N b x hb hx, ringDist_eq_of_lt N b t hb ht] at h2
  rw [ringDist_eq_of_lt N x t hx ht, ringDist_eq_of_lt N b t hb ht]
  split at h1 <;> split at h2 <;> split at h2 <;> split <;> omega

/-- The concluding block never writes any of the four bracket slots. -/
lemma concludeFalseNegative_brackets (s : PLState) :
    (concludeFalseNegative s).bestPredecessor = s.bestPredecessor ∧
    (concludeFalseNegative s).bestPredecessorsSuccessor = s.bestPredecessorsSuccessor ∧
    (concludeFalseNegative s).bestSuccessor = s.bestSuccessor ∧
    (concludeFalseNegative s).bestSuccessorsPredecessor = s.bestSuccessorsPredecessor := by
  unfold concludeFalseNegative
  split <;> exact ⟨rfl, rfl, rfl, rfl⟩

/-- The resolver never writes any of the four bracket slots. -/
lemma checkFalseNegative_brackets (N : Nat) (s : PLState) :
    (checkFalseNegative N s).bestPredecessor = s.bestPredecessor ∧
    (checkFalseNegative N s).bestPredecessorsSuccessor = s.bestPredecessorsSuccessor ∧
    (checkFalseNegative N s).bestSuccessor = s.bestSuccessor ∧
    (checkFalseNegative N s).bestSuccessorsPredecessor = s.bestSuccessorsPredecessor := by
  unfold checkFalseNegative
  repeat' split
  all_goals first
  | exact concludeFalseNegative_brackets s
  | exact ⟨rfl, rfl, rfl, rfl⟩

end EpiChord

namespace EpiChord

/-- Effects of the concluding block: flags forced, sibling registered, and a
notification appended exactly when some dead candidate exists. -/
lemma concludeFalseNegative_effects (s : PLState) :
    (concludeFalseNegative s).engine.success = true ∧
    (concludeFalseNegative s).engine.finished = true ∧
    (concludeFalseNegative s).engine.siblings
      = s.engine.siblings ++ [s.bestSuccessor] ∧
    (concludeFalseNegative s).notifs
      = (if (deadNodesOf s).isEmpty then s.notifs
         else s.notifs ++ [(s.bestPredecessor, s.bestSuccessor, deadNodesOf s)]) := by
  unfold concludeFalseNegative
  split <;> rename_i h <;> simp only [Bool.not_eq_true'] at h <;> simp [h]

/-- Claim C1: when the resolver runs on a not-yet-successful lookup, both
bracketing entries exist and are visited, and the brackets corroborate
(`bestSuccessor = bestPredecessorsSuccessor` or
`bestPredecessor = bestSuccessorsPredecessor`), it forces `success` and
`finished` and registers `bestSuccessor` as a sibling.  No hypothesis
requires any peer to have claimed direct responsibility for the target: the
resolver concludes purely from the corroborating bracket. -/
theorem checkFalseNegative_corroboration_concludes (N : Nat) (s : PLState)
    (pe se : LookupEntry)
    (hs : s.engine.success = false)
    (hp : getPreceedingEntryD N s = some pe)
    (hq : getSucceedingEntryD N s = some se)
    (hvp : s.engine.getVisited pe.handle = true)
    (hvq : s.engine.getVisited se.handle = true)
    (hcor : s.bestSuccessor = s.bestPredecessorsSuccessor
            ∨ s.bestPredecessor = s.bestSuccessorsPredecessor) :
    (checkFalseNegative N s).engine.success = true ∧
    (checkFalseNegative N s).engine.finished = true ∧
    (checkFalseNegative N s).engine.siblings
      = s.engine.siblings ++ [s.bestSuccessor] := by
  have hflags : assumeFlags s = (true, true) := by
    unfold assumeFlags
    rcases hcor with h | h <;> simp [h]
  unfold checkFalseNegative
  rw [hp, hq]
  simp only [hs, hvp, hvq, hflags, Bool.not_true, Bool.or_self, Bool.false_or,
    if_false, Bool.false_eq_true]
  exact ⟨(concludeFalseNegative_effects s).1, (concludeFalseNegative_effects s).2.1,
    (concludeFalseNegative_effects s).2.2.1⟩

end EpiChord

namespace EpiChord

def c1A : LookupEntry := ⟨⟨⟨false, 5⟩, 1⟩, true⟩

def c1C : LookupEntry := ⟨⟨⟨false, 10⟩, 2⟩, true⟩

def c1X : NodeHandle := ⟨⟨false, 12⟩, 3⟩

def c1State : PLState :=
  { engine := { target := 8, entries := [c1A, c1C],
                visitedL := [c1A.handle, c1C.handle], deadL := [],
                success := false, finished := false, siblings := [] },
    notifs := [],
    bestPredecessor := ⟨⟨false, 5⟩, 1⟩,
    bestPredecessorsSuccessor := c1X,
    bestSuccessor := c1X,
    bestSuccessorsPredecessor := ⟨⟨false, 7⟩, 9⟩ }

/-- Witness for C1 on a concrete 16-key ring with target 8: a visited alive
predecessor at key 5, a visited alive successor at key 10, and a
corroborating bracket (`bestSuccessor = bestPredecessorsSuccessor`). -/
theorem c1_witness :
    (checkFalseNegative 16 c1State).engine.success = true ∧
    (checkFalseNegative 16 c1State).engine.finished = true ∧
    (checkFalseNegative 16 c1State).engine.siblings
      = c1State.engine.siblings ++ [c1State.bestSuccessor] :=
  checkFalseNegative_corroboration_concludes 16 c1State c1A c1C (by decide)
    (by decide) (by decide) (by decide) (by decide) (Or.inl (by decide))

/-- Claim C2: without corroboration but with both claimed opposite neighbors
dead, an unfinished lookup is left completely unchanged by the resolver: no
flag change, no sibling registration, no notification. -/
theorem checkFalseNegative_deadBlockers_waits (N : Nat) (s : PLState)
    (hf : s.engine.finished = false)
    (h1 : s.bestSuccessor ≠ s.bestPredecessorsSuccessor)
    (h2 : s.bestPredecessor ≠ s.bestSuccessorsPredecessor)
    (hd1 : s.engine.getDead s.bestPredecessorsSuccessor = true)
    (hd2 : s.engine.getDead s.bestSuccessorsPredecessor = true) :
    checkFalseNegative N s = s := by
  have hflags : assumeFlags s = (true, false) := by
    unfold assumeFlags
    simp [h1, h2, hd1, hd2, hf]
  unfold checkFalseNegative
  repeat' split
  any_goals rfl
  all_goals simp_all [hflags]

def c2Dead1 : NodeHandle := ⟨⟨false, 9⟩, 4⟩

def c2Dead2 : NodeHandle := ⟨⟨false, 7⟩, 5⟩

def c2State : PLState :=
  { engine := { target := 8, entries := [⟨⟨⟨false, 5⟩, 1⟩, true⟩, ⟨⟨⟨false, 10⟩, 2⟩, true⟩],
                visitedL := [⟨⟨false, 5⟩, 1⟩, ⟨⟨false, 10⟩, 2⟩],
                deadL := [c2Dead1, c2Dead2],
                success := false, finished := false, siblings := [] },
    notifs := [],
    bestPredecessor := ⟨⟨false, 5⟩, 1⟩,
    bestPredecessorsSuccessor := c2Dead1,
    bestSuccessor := ⟨⟨false, 10⟩, 2⟩,
    bestSuccessorsPredecessor := c2Dead2 }

/-- Witness for C2: concrete unfinished lookup whose brackets disagree but
whose claimed opposite neighbors are both dead; the resolver is the
identity. -/
theorem c2_witness : checkFalseNegative 16 c2State = c2State :=
  checkFalseNegative_deadBlockers_waits 16 c2State (by decide) (by decide)
    (by decide) (by decide) (by decide)

/-- Claim C9: once `finished` is set, both entry points are the identity on
the entire state (brackets, candidate flags, outcome flags, siblings,
notification log), for every possible base-class default handler. -/
theorem handlers_terminal_noop (N : Nat) (dresp dtime : EngineState → EngineState)
    (msg : FindNodeResponse) (s : PLState)
    (hf : s.engine.finished = true) :
    handleResponse N dresp msg s = some s ∧ handleTimeout N dtime s = s := by
  unfold handleResponse handleTimeout
  simp [hf]

def c9State : PLState :=
  { engine := { target := 3, entries := [], visitedL := [], deadL := [],
                success := true, finished := true, siblings := [] },
    notifs := [],
    bestPredecessor := ⟨⟨false, 1⟩, 1⟩,
    bestPredecessorsSuccessor := ⟨⟨false, 2⟩, 2⟩,
    bestSuccessor := ⟨⟨false, 4⟩, 3⟩,
    bestSuccessorsPredecessor := ⟨⟨false, 5⟩, 4⟩ }

def c9Msg : FindNodeResponse := ⟨⟨⟨false, 2⟩, 6⟩, [⟨⟨false, 4⟩, 3⟩]⟩

/-- Witness for C9 at a concrete finished state, with identity default
handlers. -/
theorem c9_witness :
    handleResponse 8 id c9Msg c9State = some c9State ∧
    handleTimeout 8 id c9State = c9State :=
  handlers_terminal_noop 8 id id c9Msg c9State (by decide)

end EpiChord

namespace EpiChord

def c3Src : NodeHandle := ⟨⟨false, 5⟩, 7⟩

def c3Other : NodeHandle := ⟨⟨false, 9⟩, 8⟩

def c3Msg : FindNodeResponse := ⟨c3Src, [c3Other]⟩

def c3State : PLState :=
  { engine := { target := 8, entries := [], visitedL := [], deadL := [],
                success := true, finished := false, siblings := [] },
    notifs := [],
    bestPredecessor := ⟨⟨false, 0⟩, 1⟩,
    bestPredecessorsSuccessor := ⟨⟨false, 1⟩, 1⟩,
    bestSuccessor := ⟨⟨false, 9⟩, 2⟩,
    bestSuccessorsPredecessor := ⟨⟨false, 2⟩, 2⟩ }

/-- Counterexample to C3 as stated: the response entry point guards on
`finished`, not on `success`.  In the concrete state `c3State` with
`success = true` but `finished = false`, processing `c3Msg` (a specified
source at key 5, strictly between `bestPredecessor` at key 0 and the target
8, with a non-empty closest-nodes list) rewrites `bestPredecessor` to the
source: the bracket state is mutated even though `success = true`. -/
theorem c3_counterexample :
    c3State.engine.success = true ∧
    c3State.bestPredecessor ≠ c3Src ∧
    (handleResponse 16 id c3Msg c3State).map PLState.bestPredecessor
      = some c3Src := by decide

/-- Amended claim C3: in every state in which `success = true` AND
`finished = true`, the response and timeout entry points leave the whole
state unchanged (no bracket mutation, no candidate-flag change, no
notification), for every base-class default handler. -/
theorem handlers_noop_after_success_and_finished (N : Nat)
    (dresp dtime : EngineState → EngineState) (msg : FindNodeResponse)
    (s : PLState)
    (hs : s.engine.success = true)
    (hf : s.engine.finished = true) :
    handleResponse N dresp msg s = some s ∧ handleTimeout N dtime s = s := by
  unfold handleResponse handleTimeout
  simp [hf]

def c3DoneState : PLState :=
  { engine := { target := 8, entries := [], visitedL := [], deadL := [],
                success := true, finished := true, siblings := [] },
    notifs := [],
    bestPredecessor := ⟨⟨false, 0⟩, 1⟩,
    bestPredecessorsSuccessor := ⟨⟨false, 1⟩, 1⟩,
    bestSuccessor := ⟨⟨false, 9⟩, 2⟩,
    bestSuccessorsPredecessor := ⟨⟨false, 2⟩, 2⟩ }

/-- Witness for the amended C3 at a concrete successful-and-finished state. -/
theorem c3_witness :
    handleResponse 16 id c3Msg c3DoneState = some c3DoneState ∧
    handleTimeout 16 id c3DoneState = c3DoneState :=
  handlers_noop_after_success_and_finished 16 id id c3Msg c3DoneState
    (by decide) (by decide)

/-- Claim C6: whenever the resolver concludes (not-yet-successful lookup,
both bracketing entries present and visited, and either corroboration or
dead blockers with the lookup already finished by other means), it forces
`success` and `finished`, registers `bestSuccessor` as a sibling, and emits
the stale-link notification naming `bestPredecessor`, `bestSuccessor` and
the complete dead-candidate list exactly when that list is non-empty. -/
theorem checkFalseNegative_conclusion_effects (N : Nat) (s : PLState)
    (pe se : LookupEntry)
    (hs : s.engine.success = false)
    (hp : getPreceedingEntryD N s = some pe)
    (hq : getSucceedingEntryD N s = some se)
    (hvp : s.engine.getVisited pe.handle = true)
    (hvq : s.engine.getVisited se.handle = true)
    (htrig : (s.bestSuccessor = s.bestPredecessorsSuccessor
              ∨ s.bestPredecessor = s.bestSuccessorsPredecessor)
             ∨ (s.engine.getDead s.bestPredecessorsSuccessor = true
                ∧ s.engine.getDead s.bestSuccessorsPredecessor = true
                ∧ s.engine.finished = true)) :
    (checkFalseNegative N s).engine.success = true ∧
    (checkFalseNegative N s).engine.finished = true ∧
    (checkFalseNegative N s).engine.siblings
      = s.engine.siblings ++ [s.bestSuccessor] ∧
    (checkFalseNegative N s).notifs
      = (if (deadNodesOf s).isEmpty then s.notifs
         else s.notifs ++ [(s.bestPredecessor, s.bestSuccessor, deadNodesOf s)]) := by
  have hflags : (assumeFlags s).1 = true ∧ (assumeFlags s).2 = true := by
    unfold assumeFlags
    rcases htrig with h | ⟨hd1, hd2, hfin⟩
    · rcases h with h | h <;> simp [h]
    · by_cases hc : (s.bestSuccessor == s.bestPredecessorsSuccessor
          || s.bestPredecessor == s.bestSuccessorsPredecessor) = true
      · simp [hc]
      · simp [hc, hd1, hd2, hfin]
  have hcc : checkFalseNegative N s = concludeFalseNegative s := by
    unfold checkFalseNegative
    rw [hp, hq]
    simp [hs, hvp, hvq, hflags.1, hflags.2]
  rw [hcc]
  exact concludeFalseNegative_effects s

def c6A : LookupEntry := ⟨⟨⟨false, 5⟩, 1⟩, true⟩

def c6C : LookupEntry := ⟨⟨⟨false, 10⟩, 2⟩, true⟩

def c6D : LookupEntry := ⟨⟨⟨false, 12⟩, 4⟩, true⟩

def c6X : NodeHandle := ⟨⟨false, 12⟩, 3⟩

def c6State : PLState :=
  { engine := { target := 8, entries := [c6A, c6C, c6D],
                visitedL := [c6A.handle, c6C.handle],
                deadL := [c6D.handle],
                success := false, finished := false, siblings := [] },
    notifs := [],
    bestPredecessor := ⟨⟨false, 5⟩, 1⟩,
    bestPredecessorsSuccessor := c6X,
    bestSuccessor := c6X,
    bestSuccessorsPredecessor := ⟨⟨false, 7⟩, 9⟩ }

/-- Witness for C6 at a concrete state with one dead pool candidate: the
conclusion emits exactly one notification carrying the dead list. -/
theorem c6_witness :
    (checkFalseNegative 16 c6State).engine.success = true ∧
    (checkFalseNegative 16 c6State).engine.finished = true ∧
    (checkFalseNegative 16 c6State).engine.siblings
      = c6State.engine.siblings ++ [c6State.bestSuccessor] ∧
    (checkFalseNegative 16 c6State).notifs
      = (if (deadNodesOf c6State).isEmpty then c6State.notifs
         else c6State.notifs
           ++ [(c6State.bestPredecessor, c6State.bestSuccessor, deadNodesOf c6State)]) :=
  checkFalseNegative_conclusion_effects 16 c6State c6A c6C (by decide)
    (by decide) (by decide) (by decide) (by decide) (Or.inl (Or.inl (by decide)))

end EpiChord

namespace EpiChord

/-- Unfolding of the response entry point on an unfinished state whose
tracker update succeeded. -/
lemma handleResponse_eq_of_tracker (N : Nat) (dresp : EngineState → EngineState)
    (msg : FindNodeResponse) (s s1 : PLState)
    (hf : s.engine.finished = false)
    (ht : trackerUpdate N s msg = some s1) :
    handleResponse N dresp msg s
      = some (checkFalseNegative N { s1 with engine := dresp s1.engine }) := by
  unfold handleResponse
  simp [hf, ht]

/-- Shorthand: the response-handler result is `some` state carrying exactly
the given four bracket values. -/
def bracketsAre (r : Option PLState) (a b c d : NodeHandle) : Prop :=
  r.map PLState.bestPredecessor = some a ∧
  r.map PLState.bestPredecessorsSuccessor = some b ∧
  r.map PLState.bestSuccessor = some c ∧
  r.map PLState.bestSuccessorsPredecessor = some d

lemma bracketsAre_some (t : PLState) (a b c d : NodeHandle)
    (h1 : t.bestPredecessor = a) (h2 : t.bestPredecessorsSuccessor = b)
    (h3 : t.bestSuccessor = c) (h4 : t.bestSuccessorsPredecessor = d) :
    bracketsAre (some t) a b c d := by
  simp [bracketsAre, h1, h2, h3, h4]

end EpiChord

namespace EpiChord

/-- Claim C5: processing a response with a specified source and non-empty
closest-nodes list in an unfinished lookup tightens at most one bracket.  If
the source's key lies strictly between `bestPredecessor` and the target, the
source becomes `bestPredecessor` and its claimed successor is list entry 2
when entry 0 is the source itself, else entry 0; the successor-side slots
are untouched.  Symmetrically (tested only when the predecessor side did not
fire, mirroring the `else if`), a source strictly between the target and
`bestSuccessor` becomes `bestSuccessor` with claimed predecessor from entry
1 (self-claiming) or entry 0, predecessor-side slots untouched.  Holds for
every base-class default response handler. -/
theorem handleResponse_tracker_update (N : Nat) (dresp : EngineState → EngineState)
    (msg : FindNodeResponse) (s : PLState) (c0 : NodeHandle)
    (hf : s.engine.finished = false)
    (hsrc : msg.srcNode.isUnspecified = false)
    (hc0 : msg.closestNodes.get? 0 = some c0) :
    (OverlayKey.isBetween N msg.srcNode.key s.bestPredecessor.key s.targetKey = true →
      ((c0 = msg.srcNode → ∀ c2, msg.closestNodes.get? 2 = some c2 →
          bracketsAre (handleResponse N dresp msg s) msg.srcNode c2
            s.bestSuccessor s.bestSuccessorsPredecessor)
       ∧ (c0 ≠ msg.srcNode →
          bracketsAre (handleResponse N dresp msg s) msg.srcNode c0
            s.bestSuccessor s.bestSuccessorsPredecessor)))
    ∧ (OverlayKey.isBetween N msg.srcNode.key s.bestPredecessor.key s.targetKey = false →
       OverlayKey.isBetween N msg.srcNode.key s.targetKey s.bestSuccessor.key = true →
      ((c0 = msg.srcNode → ∀ c1, msg.closestNodes.get? 1 = some c1 →
          bracketsAre (handleResponse N dresp msg s) s.bestPredecessor
            s.bestPredecessorsSuccessor msg.srcNode c1)
       ∧ (c0 ≠ msg.srcNode →
          bracketsAre (handleResponse N dresp msg s) s.bestPredecessor
            s.bestPredecessorsSuccessor msg.srcNode c0))) := by
  have hlen : 0 < msg.closestNodes.length := by
    rcases List.get?_eq_some.mp hc0 with ⟨h', -⟩
    exact h'
  constructor
  · intro hbp
    constructor
    · intro hcs c2 hc2
      have ht : trackerUpdate N s msg
          = some { s with bestPredecessor := msg.srcNode,
                          bestPredecessorsSuccessor := c2 } := by
        unfold trackerUpdate
        simp_all
      rw [handleResponse_eq_of_tracker N dresp msg s _ hf ht]
      exact bracketsAre_some _ _ _ _ _ (checkFalseNegative_brackets N _).1
        (checkFalseNegative_brackets N _).2.1 (checkFalseNegative_brackets N _).2.2.1
        (checkFalseNegative_brackets N _).2.2.2
    · intro hcs
      have ht : trackerUpdate N s msg
          = some { s with bestPredecessor := msg.srcNode,
                          bestPredecessorsSuccessor := c0 } := by
        unfold trackerUpdate
        simp_all
      rw [handleResponse_eq_of_tracker N dresp msg s _ hf ht]
      exact bracketsAre_some _ _ _ _ _ (checkFalseNegative_brackets N _).1
        (checkFalseNegative_brackets N _).2.1 (checkFalseNegative_brackets N _).2.2.1
        (checkFalseNegative_brackets N _).2.2.2
  · intro hbp hbs
    constructor
    · intro hcs c1 hc1
      have ht : trackerUpdate N s msg
          = some { s with bestSuccessor := msg.srcNode,
                          bestSuccessorsPredecessor := c1 } := by
        unfold trackerUpdate
        simp_all
      rw [handleResponse_eq_of_tracker N dresp msg s _ hf ht]
      exact bracketsAre_some _ _ _ _ _ (checkFalseNegative_brackets N _).1
        (checkFalseNegative_brackets N _).2.1 (checkFalseNegative_brackets N _).2.2.1
        (checkFalseNegative_brackets N _).2.2.2
    · intro hcs
      have ht : trackerUpdate N s msg
          = some { s with bestSuccessor := msg.srcNode,
                          bestSuccessorsPredecessor := c0 } := by
        unfold trackerUpdate
        simp_all
      rw [handleResponse_eq_of_tracker N dresp msg s _ hf ht]
      exact bracketsAre_some _ _ _ _ _ (checkFalseNegative_brackets N _).1
        (checkFalseNegative_brackets N _).2.1 (checkFalseNegative_brackets N _).2.2.1
        (checkFalseNegative_brackets N _).2.2.2

end EpiChord

namespace EpiChord

def c5Src : NodeHandle := ⟨⟨false, 5⟩, 7⟩

def c5N0 : NodeHandle := ⟨⟨false, 9⟩, 8⟩

def c5Msg : FindNodeResponse := ⟨c5Src, [c5N0]⟩

def c5State : PLState :=
  { engine := { target := 8, entries := [], visitedL := [], deadL := [],
                success := false, finished := false, siblings := [] },
    notifs := [],
    bestPredecessor := ⟨⟨false, 0⟩, 1⟩,
    bestPredecessorsSuccessor := ⟨⟨false, 1⟩, 1⟩,
    bestSuccessor := ⟨⟨false, 12⟩, 2⟩,
    bestSuccessorsPredecessor := ⟨⟨false, 2⟩, 2⟩ }

/-- Witness for C5: a concrete response from key 5 (strictly between
`bestPredecessor` at 0 and target 8) whose first list entry is not the
source: `bestPredecessor` becomes the source, `bestPredecessorsSuccessor`
the first entry, successor-side slots untouched. -/
theorem c5_witness :
    bracketsAre (handleResponse 16 id c5Msg c5State) c5Src c5N0
      c5State.bestSuccessor c5State.bestSuccessorsPredecessor :=
  ((handleResponse_tracker_update 16 id c5Msg c5State c5N0 (by decide)
    (by decide) (by decide)).1 (by decide)).2 (by decide)

/-- Components of a true `isBetween` test. -/
lemma isBetween_true_elim (N : Nat) (x a b : OverlayKey)
    (h : OverlayKey.isBetween N x a b = true) :
    0 < ringDist N a.val x.val ∧
    (ringDist N a.val x.val < ringDist N a.val b.val ∨ ringDist N a.val b.val = 0) := by
  unfold OverlayKey.isBetween keyBetween at h
  simp only [Bool.and_eq_true, Bool.or_eq_true, decide_eq_true_eq] at h
  tauto

/-- Case analysis of a successful tracker update: either no bracket moved, or
exactly one of the two brackets became the response's source, guarded by the
corresponding `isBetween` test. -/
lemma trackerUpdate_cases (N : Nat) (s : PLState) (msg : FindNodeResponse)
    (s1 : PLState) (ht : trackerUpdate N s msg = some s1) :
    (s1.bestPredecessor = s.bestPredecessor ∧ s1.bestSuccessor = s.bestSuccessor)
    ∨ (OverlayKey.isBetween N msg.srcNode.key s.bestPredecessor.key s.targetKey = true
       ∧ s1.bestPredecessor = msg.srcNode ∧ s1.bestSuccessor = s.bestSuccessor)
    ∨ (OverlayKey.isBetween N msg.srcNode.key s.targetKey s.bestSuccessor.key = true
       ∧ s1.bestSuccessor = msg.srcNode ∧ s1.bestPredecessor = s.bestPredecessor) := by
  unfold trackerUpdate at ht
  repeat' split at ht
  all_goals first
  | exact Option.noConfusion ht
  | (rw [Option.some.injEq] at ht
     subst ht
     simp_all)

/-- Amended claim C7: across a response, the clockwise distance from
`bestPredecessor` up to the target never increases, and the clockwise
distance from the target up to `bestSuccessor` never increases — provided
neither bracket currently sits exactly on the target key (the degenerate
initialization in which the local node is itself the target is excluded:
there the `isBetween` test over an empty arc accepts every other key and the
distance grows from 0). -/
theorem handleResponse_monotone_tightening (N : Nat)
    (dresp : EngineState → EngineState) (msg : FindNodeResponse)
    (s s' : PLState)
    (htN : s.engine.target < N)
    (hbpN : s.bestPredecessor.key.val < N)
    (hbsN : s.bestSuccessor.key.val < N)
    (hsrcN : msg.srcNode.key.val < N)
    (hbpt : s.bestPredecessor.key.val ≠ s.engine.target)
    (hbst : s.bestSuccessor.key.val ≠ s.engine.target)
    (hr : handleResponse N dresp msg s = some s') :
    ringDist N s'.bestPredecessor.key.val s.engine.target
      ≤ ringDist N s.bestPredecessor.key.val s.engine.target ∧
    ringDist N s.engine.target s'.bestSuccessor.key.val
      ≤ ringDist N s.engine.target s.bestSuccessor.key.val := by
  unfold handleResponse at hr
  split at hr
  · rw [Option.some.injEq] at hr
    subst hr
    exact ⟨le_refl _, le_refl _⟩
  · split at hr
    · exact absurd hr (by simp)
    · rename_i s1 htr
      rw [Option.some.injEq] at hr
      subst hr
      have e1 : (checkFalseNegative N { s1 with engine := dresp s1.engine }).bestPredecessor
          = s1.bestPredecessor := (checkFalseNegative_brackets N _).1
      have e2 : (checkFalseNegative N { s1 with engine := dresp s1.engine }).bestSuccessor
          = s1.bestSuccessor := (checkFalseNegative_brackets N _).2.2.1
      rw [e1, e2]
      rcases trackerUpdate_cases N s msg s1 htr with ⟨h1, h2⟩ | ⟨hb, h1, h2⟩ | ⟨hb, h1, h2⟩
      · rw [h1, h2]
        exact ⟨le_refl _, le_refl _⟩
      · rw [h1, h2]
        have hel := isBetween_true_elim N _ _ _ hb
        refine ⟨?_, le_refl _⟩
        rcases hel.2 with hlt | h0
        · exact le_of_lt (ringDist_tighten N _ _ _ hbpN hsrcN htN hel.1 hlt)
        · exact absurd h0 (ringDist_self_pos N _ _ hbpN htN hbpt).ne'
      · rw [h1, h2]
        have hel := isBetween_true_elim N _ _ _ hb
        refine ⟨le_refl _, ?_⟩
        rcases hel.2 with hlt | h0
        · exact le_of_lt hlt
        · exact absurd h0 (ringDist_self_pos N _ _ htN hbsN (Ne.symm hbst)).ne'

end EpiChord

namespace EpiChord

def c7Src : NodeHandle := ⟨⟨false, 5⟩, 7⟩

def c7Msg : FindNodeResponse := ⟨c7Src, [⟨⟨false, 9⟩, 8⟩]⟩

def c7State : PLState :=
  { engine := { target := 0, entries := [], visitedL := [], deadL := [],
                success := false, finished := false, siblings := [] },
    notifs := [],
    bestPredecessor := ⟨⟨false, 0⟩, 1⟩,
    bestPredecessorsSuccessor := ⟨⟨false, 1⟩, 1⟩,
    bestSuccessor := ⟨⟨false, 3⟩, 2⟩,
    bestSuccessorsPredecessor := ⟨⟨false, 2⟩, 2⟩ }

/-- Counterexample to C7 as stated: in the degenerate instance where the
local node's key equals the target (key 0 on a 16-key ring), the initial
`bestPredecessor` sits on the target at clockwise distance 0, and the
`isBetween` test over the empty arc accepts any other source, so a response
from key 5 moves `bestPredecessor` to distance 11 — the distance before the
target strictly increases across a tracker update. -/
theorem c7_counterexample :
    ringDist 16 c7State.bestPredecessor.key.val c7State.engine.target = 0 ∧
    (handleResponse 16 id c7Msg c7State).map
        (fun t => ringDist 16 t.bestPredecessor.key.val c7State.engine.target)
      = some 11 := by decide

def c7wMsg : FindNodeResponse := ⟨c5Src, [c5N0]⟩

def c7wState : PLState :=
  { engine := { target := 8, entries := [], visitedL := [], deadL := [],
                success := false, finished := false, siblings := [] },
    notifs := [],
    bestPredecessor := ⟨⟨false, 0⟩, 1⟩,
    bestPredecessorsSuccessor := ⟨⟨false, 1⟩, 1⟩,
    bestSuccessor := ⟨⟨false, 12⟩, 2⟩,
    bestSuccessorsPredecessor := ⟨⟨false, 2⟩, 2⟩ }

def c7wOut : PLState :=
  { c7wState with bestPredecessor := c5Src, bestPredecessorsSuccessor := c5N0 }

/-- Witness for the amended C7 on a concrete non-degenerate state: a response
from key 5 tightens the predecessor distance from 8 to 3 and leaves the
successor distance at 4. -/
theorem c7_witness :
    ringDist 16 c7wOut.bestPredecessor.key.val c7wState.engine.target
      ≤ ringDist 16 c7wState.bestPredecessor.key.val c7wState.engine.target ∧
    ringDist 16 c7wState.engine.target c7wOut.bestSuccessor.key.val
      ≤ ringDist 16 c7wState.engine.target c7wState.bestSuccessor.key.val :=
  handleResponse_monotone_tightening 16 id c7wMsg c7wState c7wOut (by decide)
    (by decide) (by decide) (by decide) (by decide) (by decide) (by decide)

def c10Src : NodeHandle := ⟨⟨false, 5⟩, 7⟩

def c10Msg : FindNodeResponse := ⟨c10Src, [c10Src]⟩

def c10State : PLState :=
  { engine := { target := 8, entries := [], visitedL := [], deadL := [],
                success := false, finished := false, siblings := [] },
    notifs := [],
    bestPredecessor := ⟨⟨false, 0⟩, 1⟩,
    bestPredecessorsSuccessor := ⟨⟨false, 1⟩, 1⟩,
    bestSuccessor := ⟨⟨false, 12⟩, 2⟩,
    bestSuccessorsPredecessor := ⟨⟨false, 2⟩, 2⟩ }

/-- Claim C10: the guard of the tracker-update block only checks that the
closest-nodes list is non-empty, yet the self-claiming branches read list
positions 2 (predecessor side) and 1 (successor side).  First conjunct: a
concrete self-claiming response with a single list entry makes the
predecessor-side access fall out of bounds (the update faults, rendered as
`none`).  Second conjunct: under the unstated precondition that a
self-claiming response carries at least three entries, every access is in
bounds.  Third conjunct: on the successor side alone, at least two entries
suffice. -/
theorem trackerUpdate_bounds (N : Nat) (s : PLState) (msg : FindNodeResponse) :
    (trackerUpdate 16 c10State c10Msg = none ∧ c10Msg.closestNodes.length = 1
      ∧ c10Msg.closestNodes.get? 0 = some c10Msg.srcNode) ∧
    ((msg.closestNodes.get? 0 = some msg.srcNode → 3 ≤ msg.closestNodes.length) →
      (trackerUpdate N s msg).isSome = true) ∧
    (OverlayKey.isBetween N msg.srcNode.key s.bestPredecessor.key s.targetKey = false →
     (msg.closestNodes.get? 0 = some msg.srcNode → 2 ≤ msg.closestNodes.length) →
      (trackerUpdate N s msg).isSome = true) := by
  refine ⟨by decide, ?_, ?_⟩
  · intro hb
    by_cases h0 : msg.closestNodes.get? 0 = some msg.srcNode
    · have h3 : 3 ≤ msg.closestNodes.length := hb h0
      have e2 : msg.closestNodes.get? 2
          = some (msg.closestNodes.get ⟨2, by omega⟩) := List.get?_eq_get (by omega)
      have e1 : msg.closestNodes.get? 1
          = some (msg.closestNodes.get ⟨1, by omega⟩) := List.get?_eq_get (by omega)
      unfold trackerUpdate
      repeat' split
      all_goals simp_all
      all_goals omega
    · unfold trackerUpdate
      repeat' split
      all_goals simp_all
  · intro hpb hb
    by_cases h0 : msg.closestNodes.get? 0 = some msg.srcNode
    · have h3 : 2 ≤ msg.closestNodes.length := hb h0
      have e1 : msg.closestNodes.get? 1
          = some (msg.closestNodes.get ⟨1, by omega⟩) := List.get?_eq_get (by omega)
      unfold trackerUpdate
      repeat' split
      all_goals simp_all
      all_goals omega
    · unfold trackerUpdate
      repeat' split
      all_goals simp_all

end EpiChord

namespace EpiChord

def c10WMsg : FindNodeResponse :=
  ⟨c10Src, [c10Src, ⟨⟨false, 3⟩, 1⟩, ⟨⟨false, 6⟩, 2⟩]⟩

/-- Witness for C10: with three closest-nodes entries, the self-claiming
predecessor-side update of a concrete response stays in bounds. -/
theorem c10_witness : (trackerUpdate 16 c10State c10WMsg).isSome = true :=
  (trackerUpdate_bounds 16 c10State c10WMsg).2.1 (by decide)

end EpiChord

namespace EpiChord

/-- Invariant carried by the `getPreceedingEntry` scan accumulator (default
flags): a selected entry is a pool member, alive, at the recorded distance,
and that distance beats the 0 sentinel. -/
def preAccOK (N : Nat) (s : PLState) (acc : Option LookupEntry × Nat) : Prop :=
  ∀ e, acc.1 = some e →
    (e ∈ s.engine.entries ∧ s.engine.getDead e.handle = false
     ∧ ringDist N s.engine.target e.handle.key.val = acc.2 ∧ 0 < acc.2)

lemma preStep_ok (N : Nat) (s : PLState) (x : LookupEntry)
    (hx : x ∈ s.engine.entries) (acc : Option LookupEntry × Nat)
    (h : preAccOK N s acc) : preAccOK N s (preStep N s false true acc x) := by
  unfold preStep
  split
  · exact h
  next hdead =>
    split
    · exact h
    · split
      · exact h
      next hgt =>
        intro e he
        have hxe : x = e := by simpa using he
        subst hxe
        refine ⟨hx, ?_, rfl, by omega⟩
        simpa using hdead

lemma preFold_ok (N : Nat) (s : PLState) (l : List LookupEntry)
    (hl : ∀ e ∈ l, e ∈ s.engine.entries) (acc : Option LookupEntry × Nat)
    (h : preAccOK N s acc) :
    preAccOK N s (l.foldl (preStep N s false true) acc) := by
  induction l generalizing acc with
  | nil => simpa using h
  | cons x xs ih =>
    rw [List.foldl_cons]
    exact ih (fun e he => hl e (List.mem_cons_of_mem x he))
      (preStep N s false true acc x)
      (preStep_ok N s x (hl x (List.mem_cons_self x xs)) acc h)

lemma preStep_ge (N : Nat) (s : PLState) (x : LookupEntry)
    (acc : Option LookupEntry × Nat) :
    acc.2 ≤ (preStep N s false true acc x).2 := by
  unfold preStep
  split
  · exact le_refl _
  · split
    · exact le_refl _
    · split
      · exact le_refl _
      next hgt => simp only; omega

lemma preFold_ge (N : Nat) (s : PLState) (l : List LookupEntry)
    (acc : Option LookupEntry × Nat) :
    acc.2 ≤ (l.foldl (preStep N s false true) acc).2 := by
  induction l generalizing acc with
  | nil => simp
  | cons x xs ih =>
    rw [List.foldl_cons]
    exact le_trans (preStep_ge N s x acc) (ih (preStep N s false true acc x))

lemma preFold_dom (N : Nat) (s : PLState) (l : List LookupEntry)
    (acc : Option LookupEntry × Nat) :
    ∀ e ∈ l, s.engine.getDead e.handle = false →
      ringDist N s.engine.target e.handle.key.val
        ≤ (l.foldl (preStep N s false true) acc).2 := by
  induction l generalizing acc with
  | nil => simp
  | cons x xs ih =>
    intro e he hd
    rw [List.foldl_cons]
    rcases List.mem_cons.mp he with rfl | he'
    · refine le_trans ?_ (preFold_ge N s xs (preStep N s false true acc e))
      unfold preStep
      split
      next hdead => simp [hd] at hdead
      · split
        next hused => simp at hused
        · split
          next hle => simpa using hle
          · simp
    · exact ih (preStep N s false true acc x) e he' hd

end EpiChord

namespace EpiChord

/-- Invariant carried by the `getSucceedingEntry` scan accumulator (default
flags): the recorded distance never exceeds the sentinel, and a selected
entry is a pool member, alive, at the recorded distance, strictly below the
sentinel. -/
def succAccOK (N : Nat) (s : PLState) (acc : Option LookupEntry × Nat) : Prop :=
  acc.2 ≤ OverlayKey.getMax N ∧
  ∀ e, acc.1 = some e →
    (e ∈ s.engine.entries ∧ s.engine.getDead e.handle = false
     ∧ ringDist N s.engine.target e.handle.key.val = acc.2
     ∧ acc.2 < OverlayKey.getMax N)

lemma succStep_ok (N : Nat) (s : PLState) (x : LookupEntry)
    (hx : x ∈ s.engine.entries) (acc : Option LookupEntry × Nat)
    (h : succAccOK N s acc) : succAccOK N s (succStep N s false true acc x) := by
  obtain ⟨hmax, hsel⟩ := h
  unfold succStep
  split
  · exact ⟨hmax, hsel⟩
  next hdead =>
    split
    · exact ⟨hmax, hsel⟩
    · split
      · exact ⟨hmax, hsel⟩
      next hgt =>
        constructor
        · simp only
          omega
        · intro e he
          have hxe : x = e := by simpa using he
          subst hxe
          refine ⟨hx, ?_, rfl, by omega⟩
          simpa using hdead

lemma succFold_ok (N : Nat) (s : PLState) (l : List LookupEntry)
    (hl : ∀ e ∈ l, e ∈ s.engine.entries) (acc : Option LookupEntry × Nat)
    (h : succAccOK N s acc) :
    succAccOK N s (l.foldl (succStep N s false true) acc) := by
  induction l generalizing acc with
  | nil => simpa using h
  | cons x xs ih =>
    rw [List.foldl_cons]
    exact ih (fun e he => hl e (List.mem_cons_of_mem x he))
      (succStep N s false true acc x)
      (succStep_ok N s x (hl x (List.mem_cons_self x xs)) acc h)

lemma succStep_le (N : Nat) (s : PLState) (x : LookupEntry)
    (acc : Option LookupEntry × Nat) :
    (succStep N s false true acc x).2 ≤ acc.2 := by
  unfold succStep
  split
  · exact le_refl _
  · split
    · exact le_refl _
    · split
      · exact le_refl _
      next hgt => simp only; omega

lemma succFold_le (N : Nat) (s : PLState) (l : List LookupEntry)
    (acc : Option LookupEntry × Nat) :
    (l.foldl (succStep N s false true) acc).2 ≤ acc.2 := by
  induction l generalizing acc with
  | nil => simp
  | cons x xs ih =>
    rw [List.foldl_cons]
    exact le_trans (ih (succStep N s false true acc x)) (succStep_le N s x acc)

lemma succFold_dom (N : Nat) (s : PLState) (l : List LookupEntry)
    (acc : Option LookupEntry × Nat) :
    ∀ e ∈ l, s.engine.getDead e.handle = false →
      (l.foldl (succStep N s false true) acc).2
        ≤ ringDist N s.engine.target e.handle.key.val := by
  induction l generalizing acc with
  | nil => simp
  | cons x xs ih =>
    intro e he hd
    rw [List.foldl_cons]
    rcases List.mem_cons.mp he with rfl | he'
    · refine le_trans (succFold_le N s xs (succStep N s false true acc e)) ?_
      unfold succStep
      split
      next hdead => simp [hd] at hdead
      · split
        next hused => simp at hused
        · split
          next hle => simpa using hle
          · simp
    · exact ih (succStep N s false true acc x) e he' hd

end EpiChord

namespace EpiChord

/-- Amended claim C4: the resolver's preceding entry is the alive candidate
(visited or not, used or not) of maximal clockwise distance from the target,
candidates at distance 0 being ignored by the sentinel; the succeeding entry
is the alive candidate of minimal clockwise distance, candidates at the
maximal distance `N-1` being ignored by the sentinel.  If either scan comes
back empty, or if either selected entry has not been visited, the resolver
aborts with no side effects. -/
theorem resolver_scan_characterization (N : Nat) (s : PLState) :
    (∀ e, getPreceedingEntryD N s = some e →
       (e ∈ s.engine.entries ∧ s.engine.getDead e.handle = false
        ∧ 0 < ringDist N s.engine.target e.handle.key.val
        ∧ ∀ f ∈ s.engine.entries, s.engine.getDead f.handle = false →
            ringDist N s.engine.target f.handle.key.val
              ≤ ringDist N s.engine.target e.handle.key.val)) ∧
    (∀ e, getSucceedingEntryD N s = some e →
       (e ∈ s.engine.entries ∧ s.engine.getDead e.handle = false
        ∧ ringDist N s.engine.target e.handle.key.val < OverlayKey.getMax N
        ∧ ∀ f ∈ s.engine.entries, s.engine.getDead f.handle = false →
            ringDist N s.engine.target e.handle.key.val
              ≤ ringDist N s.engine.target f.handle.key.val)) ∧
    (getPreceedingEntryD N s = none → checkFalseNegative N s = s) ∧
    (getSucceedingEntryD N s = none → checkFalseNegative N s = s) ∧
    (∀ pe se, getPreceedingEntryD N s = some pe → getSucceedingEntryD N s = some se →
       (s.engine.getVisited pe.handle = false ∨ s.engine.getVisited se.handle = false) →
       checkFalseNegative N s = s) := by
  refine ⟨?_, ?_, ?_, ?_, ?_⟩
  · intro e he
    have hOK := preFold_ok N s s.engine.entries (fun f hf => hf) (none, 0)
      (by intro f hf; simp at hf)
    have h := hOK e he
    refine ⟨h.1, h.2.1, ?_, ?_⟩
    · rw [h.2.2.1]
      exact h.2.2.2
    · intro f hf hfd
      rw [h.2.2.1]
      exact preFold_dom N s s.engine.entries (none, 0) f hf hfd
  · intro e he
    have hOK := succFold_ok N s s.engine.entries (fun f hf => hf)
      (none, OverlayKey.getMax N) ⟨le_refl _, by intro f hf; simp at hf⟩
    have h := hOK.2 e he
    refine ⟨h.1, h.2.1, ?_, ?_⟩
    · rw [h.2.2.1]
      exact h.2.2.2
    · intro f hf hfd
      rw [h.2.2.1]
      exact succFold_dom N s s.engine.entries (none, OverlayKey.getMax N) f hf hfd
  · intro hnone
    unfold checkFalseNegative
    rw [hnone]
    split
    · rfl
    · rfl
  · intro hnone
    unfold checkFalseNegative
    rw [hnone]
    split
    · rfl
    · cases hpre : getPreceedingEntryD N s with
      | none => rfl
      | some pe => rfl
  · intro pe se hp hq hv
    unfold checkFalseNegative
    rw [hp, hq]
    split
    · rfl
    · rcases hv with h | h <;> simp [h]

/-- The claim's own notion of the preceding entry: among candidates that are
alive AND already visited, the one of maximal clockwise distance from the
target (first wins on ties), paired with that distance. -/
def specPreceedingVisited (N : Nat) (s : PLState) : Option (LookupEntry × Nat) :=
  s.engine.entries.foldl (fun acc e =>
    if s.engine.getDead e.handle || !(s.engine.getVisited e.handle) then acc
    else
      match acc with
      | none => some (e, ringDist N s.engine.target e.handle.key.val)
      | some p =>
        if p.2 < ringDist N s.engine.target e.handle.key.val then
          some (e, ringDist N s.engine.target e.handle.key.val)
        else acc) none

/-- The claim's own notion of the succeeding entry: among candidates that are
alive AND already visited, the one of minimal clockwise distance from the
target (first wins on ties), paired with that distance. -/
def specSucceedingVisited (N : Nat) (s : PLState) : Option (LookupEntry × Nat) :=
  s.engine.entries.foldl (fun acc e =>
    if s.engine.getDead e.handle || !(s.engine.getVisited e.handle) then acc
    else
      match acc with
      | none => some (e, ringDist N s.engine.target e.handle.key.val)
      | some p =>
        if ringDist N s.engine.target e.handle.key.val < p.2 then
          some (e, ringDist N s.engine.target e.handle.key.val)
        else acc) none

def c4A : LookupEntry := ⟨⟨⟨false, 5⟩, 1⟩, true⟩

def c4B : LookupEntry := ⟨⟨⟨false, 6⟩, 2⟩, true⟩

def c4C : LookupEntry := ⟨⟨⟨false, 10⟩, 3⟩, true⟩

def c4X : NodeHandle := ⟨⟨false, 12⟩, 4⟩

def c4State : PLState :=
  { engine := { target := 8, entries := [c4A, c4B, c4C],
                visitedL := [c4A.handle, c4C.handle], deadL := [],
                success := false, finished := false, siblings := [] },
    notifs := [],
    bestPredecessor := ⟨⟨false, 6⟩, 2⟩,
    bestPredecessorsSuccessor := c4X,
    bestSuccessor := c4X,
    bestSuccessorsPredecessor := ⟨⟨false, 7⟩, 9⟩ }

/-- Counterexample to C4 as stated: in `c4State` the alive-and-visited
candidates bracket the target (predecessor `c4A` at distance 13, successor
`c4C` at distance 2, both visited) and the brackets corroborate, so under
the claim the resolver would select them and conclude; but the code's scan
ranges over all alive candidates irrespective of visited status, selects the
unvisited tighter predecessor `c4B` (distance 14), fails its visited check,
and aborts: the state is returned completely unchanged, success still
false. -/
theorem c4_counterexample :
    specPreceedingVisited 16 c4State = some (c4A, 13) ∧
    specSucceedingVisited 16 c4State = some (c4C, 2) ∧
    c4State.engine.getVisited c4A.handle = true ∧
    c4State.engine.getVisited c4C.handle = true ∧
    c4State.bestSuccessor = c4State.bestPredecessorsSuccessor ∧
    c4State.engine.success = false ∧
    getPreceedingEntryD 16 c4State = some c4B ∧
    c4State.engine.getVisited c4B.handle = false ∧
    checkFalseNegative 16 c4State = c4State := by decide

def c4WState : PLState :=
  { engine := { target := 2, entries := [], visitedL := [], deadL := [],
                success := false, finished := false, siblings := [] },
    notifs := [],
    bestPredecessor := ⟨⟨false, 0⟩, 1⟩,
    bestPredecessorsSuccessor := ⟨⟨false, 1⟩, 1⟩,
    bestSuccessor := ⟨⟨false, 3⟩, 2⟩,
    bestSuccessorsPredecessor := ⟨⟨false, 1⟩, 2⟩ }

/-- Witness for the amended C4: with an empty candidate pool the preceding
scan is empty and the resolver aborts without side effects. -/
theorem c4_witness : checkFalseNegative 4 c4WState = c4WState :=
  (resolver_scan_characterization 4 c4WState).2.2.1 (by decide)

end EpiChord

namespace EpiChord

/-- One step of the claim's own succeeding-entry scan: skip dead candidates
only (used or visited status irrelevant), keep the first candidate of
strictly minimal clockwise distance from the target. -/
def specSuccStep (N : Nat) (s : PLState) (acc : Option (LookupEntry × Nat))
    (e : LookupEntry) : Option (LookupEntry × Nat) :=
  if s.engine.getDead e.handle then acc
  else
    match acc with
    | none => some (e, ringDist N s.engine.target e.handle.key.val)
    | some p =>
      if ringDist N s.engine.target e.handle.key.val < p.2 then
        some (e, ringDist N s.engine.target e.handle.key.val)
      else acc

/-- The claim's own notion of the succeeding entry for next-hop selection:
the tightest alive candidate forward of the target, irrespective of the used
flag, with no sentinel cutoff; paired with its distance. -/
def specSucceedingAlive (N : Nat) (s : PLState) : Option (LookupEntry × Nat) :=
  s.engine.entries.foldl (specSuccStep N s) none

/-- Simulation relation between the code scan accumulator (with its
`getMax` sentinel) and the claim's sentinel-free accumulator. -/
def succRel (N : Nat) (acc : Option LookupEntry × Nat)
    (sp : Option (LookupEntry × Nat)) : Prop :=
  (∃ e d, sp = some (e, d) ∧ d < OverlayKey.getMax N ∧ acc = (some e, d))
  ∨ (acc = (none, OverlayKey.getMax N)
     ∧ (sp = none ∨ ∃ e, sp = some (e, OverlayKey.getMax N)))

lemma succRel_step (N : Nat) (s : PLState) (x : LookupEntry) (hN : 0 < N)
    (acc : Option LookupEntry × Nat) (sp : Option (LookupEntry × Nat))
    (h : succRel N acc sp) :
    succRel N (succStep N s false true acc x) (specSuccStep N s sp x) := by
  have hdx : ringDist N s.engine.target x.handle.key.val ≤ OverlayKey.getMax N := by
    have := ringDist_lt_of_lt N s.engine.target x.handle.key.val hN
    unfold OverlayKey.getMax
    omega
  by_cases hd : s.engine.getDead x.handle = true
  · have e1 : succStep N s false true acc x = acc := by
      unfold succStep
      simp [hd]
    have e2 : specSuccStep N s sp x = sp := by
      unfold specSuccStep
      simp [hd]
    rw [e1, e2]
    exact h
  · have hd' : s.engine.getDead x.handle = false := by simpa using hd
    rcases h with ⟨e, d0, hsp, hdlt, hacc⟩ | ⟨hacc, hsp⟩
    · subst hsp
      rw [hacc]
      have e1 : succStep N s false true (some e, d0) x
          = (if d0 ≤ ringDist N s.engine.target x.handle.key.val then (some e, d0)
             else (some x, ringDist N s.engine.target x.handle.key.val)) := by
        unfold succStep
        simp [hd']
      have e2 : specSuccStep N s (some (e, d0)) x
          = (if ringDist N s.engine.target x.handle.key.val < d0 then
               some (x, ringDist N s.engine.target x.handle.key.val)
             else some (e, d0)) := by
        unfold specSuccStep
        simp [hd']
      rw [e1, e2]
      by_cases hc : ringDist N s.engine.target x.handle.key.val < d0
      · rw [if_neg (by omega), if_pos hc]
        exact Or.inl ⟨x, _, rfl, by omega, rfl⟩
      · rw [if_pos (by omega), if_neg hc]
        exact Or.inl ⟨e, d0, rfl, hdlt, rfl⟩
    · rcases hsp with hsp | ⟨e, hsp⟩
      · subst hsp
        rw [hacc]
        have e1 : succStep N s false true (none, OverlayKey.getMax N) x
            = (if OverlayKey.getMax N ≤ ringDist N s.engine.target x.handle.key.val then
                 ((none : Option LookupEntry), OverlayKey.getMax N)
               else (some x, ringDist N s.engine.target x.handle.key.val)) := by
          unfold succStep
          simp [hd']
        have e2 : specSuccStep N s none x
            = some (x, ringDist N s.engine.target x.handle.key.val) := by
          unfold specSuccStep
          simp [hd']
        rw [e1, e2]
        by_cases hc : OverlayKey.getMax N ≤ ringDist N s.engine.target x.handle.key.val
        · rw [if_pos hc]
          have hde : ringDist N s.engine.target x.handle.key.val
              = OverlayKey.getMax N := le_antisymm hdx hc
          rw [hde]
          exact Or.inr ⟨rfl, Or.inr ⟨x, rfl⟩⟩
        · rw [if_neg hc]
          exact Or.inl ⟨x, _, rfl, by omega, rfl⟩
      · subst hsp
        rw [hacc]
        have e1 : succStep N s false true (none, OverlayKey.getMax N) x
            = (if OverlayKey.getMax N ≤ ringDist N s.engine.target x.handle.key.val then
                 ((none : Option LookupEntry), OverlayKey.getMax N)
               else (some x, ringDist N s.engine.target x.handle.key.val)) := by
          unfold succStep
          simp [hd']
        have e2 : specSuccStep N s (some (e, OverlayKey.getMax N)) x
            = (if ringDist N s.engine.target x.handle.key.val < OverlayKey.getMax N then
                 some (x, ringDist N s.engine.target x.handle.key.val)
               else some (e, OverlayKey.getMax N)) := by
          unfold specSuccStep
          simp [hd']
        rw [e1, e2]
        by_cases hc : ringDist N s.engine.target x.handle.key.val < OverlayKey.getMax N
        · rw [if_neg (by omega), if_pos hc]
          exact Or.inl ⟨x, _, rfl, hc, rfl⟩
        · rw [if_pos (by omega), if_neg hc]
          exact Or.inr ⟨rfl, Or.inr ⟨e, rfl⟩⟩

lemma succRel_fold (N : Nat) (s : PLState) (hN : 0 < N) (l : List LookupEntry)
    (acc : Option LookupEntry × Nat) (sp : Option (LookupEntry × Nat))
    (h : succRel N acc sp) :
    succRel N (l.foldl (succStep N s false true) acc)
      (l.foldl (specSuccStep N s) sp) := by
  induction l generalizing acc sp with
  | nil => simpa using h
  | cons x xs ih =>
    rw [List.foldl_cons, List.foldl_cons]
    exact ih _ _ (succRel_step N s x hN acc sp h)

/-- Below the sentinel, the code scan and the claim's scan agree. -/
lemma getSucceedingEntry_eq_spec (N : Nat) (s : PLState) (e : LookupEntry)
    (d : Nat) (hN : 0 < N)
    (hsp : specSucceedingAlive N s = some (e, d))
    (hlt : d < OverlayKey.getMax N) :
    getSucceedingEntry N s false true = some e := by
  have h := succRel_fold N s hN s.engine.entries (none, OverlayKey.getMax N)
    none (Or.inr ⟨rfl, Or.inl rfl⟩)
  unfold specSucceedingAlive at hsp
  unfold getSucceedingEntry
  rcases h with ⟨e', d', hsp', hd', hacc'⟩ | ⟨hacc', hsp'⟩
  · have he : some (e', d') = some (e, d) := hsp'.symm.trans hsp
    rw [Option.some.injEq, Prod.mk.injEq] at he
    rw [hacc', he.1]
  · rcases hsp' with hsp' | ⟨e', hsp'⟩
    · exact absurd (hsp'.symm.trans hsp) (by simp)
    · have he : some (e', OverlayKey.getMax N) = some (e, d) := hsp'.symm.trans hsp
      rw [Option.some.injEq, Prod.mk.injEq] at he
      omega

end EpiChord

namespace EpiChord

def c8E : LookupEntry := ⟨⟨⟨false, 15⟩, 1⟩, false⟩

def c8State : PLState :=
  { engine := { target := 0, entries := [c8E], visitedL := [], deadL := [],
                success := false, finished := false, siblings := [] },
    notifs := [],
    bestPredecessor := ⟨⟨false, 14⟩, 1⟩,
    bestPredecessorsSuccessor := ⟨⟨false, 1⟩, 1⟩,
    bestSuccessor := ⟨⟨false, 2⟩, 2⟩,
    bestSuccessorsPredecessor := ⟨⟨false, 3⟩, 2⟩ }

/-- Counterexample to C8 as stated: on a 16-key ring with target 0, the only
candidate (key 15, alive, unused) is the tightest alive candidate forward of
the target in the claim's sense — `specSucceedingAlive` selects it at
forward distance 15.  But 15 equals the `getMax` sentinel that initializes
the code's scan, whose strict-improvement test skips the candidate, so
next-hop selection falls back to the default selector (here one returning
nothing) instead of returning the succeeding candidate. -/
theorem c8_counterexample :
    specSucceedingAlive 16 c8State = some (c8E, 15) ∧
    c8E.alreadyUsed = false ∧
    c8State.engine.getDead c8E.handle = false ∧
    getNextEntry 16 (fun _ => none) c8State = none := by decide

/-- Amended claim C8: next-hop selection returns the succeeding entry — the
tightest alive candidate forward of the target, irrespective of the used
flag — whenever that entry exists, its forward distance is strictly below
the maximal distance `N-1` (the sentinel), and it has not yet been probed;
if the succeeding entry is already probed, or no candidate survives the
scan, selection falls back entirely to the engine's default selector. -/
theorem getNextEntry_directional (N : Nat) (s : PLState)
    (dnext : PLState → Option LookupEntry) :
    (∀ e d, 0 < N → specSucceedingAlive N s = some (e, d) →
       d < OverlayKey.getMax N → e.alreadyUsed = false →
       getNextEntry N dnext s = some e) ∧
    (∀ e, getSucceedingEntry N s false true = some e → e.alreadyUsed = true →
       getNextEntry N dnext s = dnext s) ∧
    (getSucceedingEntry N s false true = none →
       getNextEntry N dnext s = dnext s) := by
  refine ⟨?_, ?_, ?_⟩
  · intro e d hN hsp hlt hu
    have hcode := getSucceedingEntry_eq_spec N s e d hN hsp hlt
    unfold getNextEntry
    rw [hcode]
    simp [hu]
  · intro e hc hu
    unfold getNextEntry
    rw [hc]
    simp [hu]
  · intro hc
    unfold getNextEntry
    rw [hc]

def c8sSucc : LookupEntry := ⟨⟨⟨false, 11⟩, 1⟩, false⟩

def c8sPred : LookupEntry := ⟨⟨⟨false, 7⟩, 2⟩, false⟩

def c8sState : PLState :=
  { engine := { target := 8, entries := [c8sPred, c8sSucc], visitedL := [],
                deadL := [], success := false, finished := false, siblings := [] },
    notifs := [],
    bestPredecessor := ⟨⟨false, 7⟩, 2⟩,
    bestPredecessorsSuccessor := ⟨⟨false, 1⟩, 1⟩,
    bestSuccessor := ⟨⟨false, 12⟩, 3⟩,
    bestSuccessorsPredecessor := ⟨⟨false, 3⟩, 3⟩ }

/-- Witness for the amended C8, exhibiting the directional bias: one alive
unused succeeding candidate (key 11, forward distance 3) and one closer
alive unused preceding candidate (key 7, absolute distance 1); selection
returns the succeeding one even though the default selector would return the
preceding one. -/
theorem c8_witness :
    getNextEntry 16 (fun _ => some c8sPred) c8sState = some c8sSucc :=
  (getNextEntry_directional 16 c8sState (fun _ => some c8sPred)).1 c8sSucc 3
    (by decide) (by decide) (by decide) (by decide)

end EpiChord
